import Mathlib

/-!
Verification of the Credora repository against its specification.

The repository is a scaffold: the only executable pieces are the SQL schema
(a single users table) and the authentication service (register, login,
registerService).  The Reward Optimization Engine described in sections 3 to 5
of the specification is not implemented anywhere under the source tree; the
planning documents only sketch it.  Definitions for that engine below are
therefore modelled from the specification text and are marked as such in
their doc comments.
-/

set_option autoImplicit false

namespace Credora

/-! ## Persisted schema (schema.sql) -/

/-- SQL column types appearing in the schema file. -/
inductive SqlType where
  | uuid
  | varchar (maxLen : Nat)
  deriving DecidableEq

/-- A column declaration of the SQL schema: name, type and the column
constraints written in the DDL. -/
structure Column where
  name : String
  ty : SqlType
  primaryKey : Bool
  uniqueCol : Bool
  notNull : Bool
  hasDefault : Bool
  deriving DecidableEq

/-- A table declaration of the SQL schema. -/
structure Table where
  name : String
  columns : List Column
  deriving DecidableEq

/-- Column id UUID PRIMARY KEY DEFAULT uuid_generate_v4() of the users table. -/
def idColumn : Column := ⟨ "id", .uuid, true, false, false, true⟩

/-- Column email VARCHAR(255) UNIQUE NOT NULL of the users table. -/
def emailColumn : Column := ⟨ "email", .varchar 255, false, true, true, false⟩

/-- Column password VARCHAR(255) NOT NULL of the users table. -/
def passwordColumn : Column := ⟨ "password", .varchar 255, false, false, true, false⟩

/-- The users table, the only table created by schema.sql. -/
def usersTable : Table := ⟨ "users", [idColumn, emailColumn, passwordColumn]⟩

/-- The full list of application tables created by schema.sql. -/
def credoraSchema : List Table := [usersTable]

/-! ## Authentication service (auth.service.ts, User.ts model) -/

/-- A row of the users table as the User model sees it.  The generated UUID
primary key is irrelevant to the verified claims and is omitted. -/
structure UserRow where
  email : String
  password : String
  deriving DecidableEq

/-- The contents of the users table. -/
abbrev UsersDb := List UserRow

/-- findUserByEmail of User.ts: SELECT * FROM users WHERE email = given email,
returning the first matching row. -/
def findUserByEmail (db : UsersDb) (email : String) : Option UserRow :=
  db.find? (fun u => u.email == email)

/-- createUser of User.ts: INSERT INTO users (email, password) VALUES (given
email, given password). -/
def createUser (db : UsersDb) (email password : String) : UsersDb :=
  db ++ [⟨email, password⟩]

/-- Result of an authentication service call: the success message or the
error string the service returns. -/
inductive AuthResult where
  | ok (message : String)
  | err (error : String)
  deriving DecidableEq

/-- register of auth.service.ts.  The bcrypt hash (salted, with
BCRYPT_ROUNDS rounds) is abstracted as the function argument hash; the JWT
access and refresh tokens returned on success are irrelevant to the verified
claims and are omitted.  The function returns its result together with the
users table state after the call. -/
def register (hash : String → String) (db : UsersDb) (email password : String) :
    AuthResult × UsersDb :=
  match findUserByEmail db email with
  | some _ => (.err "User already exists", db)
  | none =>
      let hashedPassword := hash password
      (.ok "User registered successfully", createUser db email hashedPassword)

/-- login of auth.service.ts: looks the user up by email and compares the
stored password to the plain-text argument with a direct inequality test. -/
def login (db : UsersDb) (email password : String) : AuthResult :=
  match findUserByEmail db email with
  | none => .err "User does not exist"
  | some u =>
      if u.password ≠ password then .err "Invalid password"
      else .ok "User logged in successfully"

/-- registerService of the second auth service file: like register but stores
the plain-text password (its hashing is a TODO in the source).  Returns its
result with the users table state after the call. -/
def registerService (db : UsersDb) (email password : String) :
    AuthResult × UsersDb :=
  match findUserByEmail db email with
  | some _ => (.err "User already exists", db)
  | none => (.ok "User registered successfully", createUser db email password)

/-! ## Reward Optimization Engine

The engine (Rule Matcher, Reward Calculator, Threshold Tracker, Optimizer)
is described in the specification but has no implementation in the source
tree; every definition in this section is modelled from the specification
text.  Money amounts and rates are rationals; timestamps are integers
counting hours, with a calendar month modelled as 720 hours (30 days). -/

/-- Modelled from the spec: the closed rewardType variant of RewardRule
(missing from the source). -/
inductive RewardType where
  | cashback
  | points
  | milesOrLoungeAccess
  | discount
  deriving DecidableEq

/-- Modelled from the spec: the window definition of a rule, calendar month
or rolling N days (missing from the source). -/
inductive WindowDef where
  | calendarMonth
  | rollingDays (n : Nat)
  deriving DecidableEq

/-- Hours per day in the time model. -/
def hoursPerDay : Nat := 24

/-- Hours per calendar month in the time model (30 days). -/
def hoursPerMonth : Nat := 720

/-- Latest timestamp (in hours) the Threshold Tracker resolves; later
timestamps are the far-future timestamps the spec rejects. -/
def maxTimestamp : Int := 876000

/-- Modelled from the spec: window resolution of the Threshold Tracker
(missing from the source) — computes the concrete windowInstance key for a
timestamp, or none when the timestamp falls outside any resolvable window
(negative or far-future timestamps, or a degenerate rolling width). -/
def resolveWindow (w : WindowDef) (ts : Int) : Option Nat :=
  if ts < 0 then none
  else if maxTimestamp < ts then none
  else
    match w with
    | .calendarMonth => some (ts.toNat / hoursPerMonth)
    | .rollingDays n => if n = 0 then none else some (ts.toNat / (hoursPerDay * n))

/-- Modelled from the spec: the cumulative minimum-spend gate of a rule
(missing from the source) — spend at least minCumulativeSpend in the window
to unlock unlockedRate instead of the base rate. -/
structure CumulativeGate where
  minCumulativeSpend : ℚ
  unlockedRate : ℚ
  deriving DecidableEq

/-- Modelled from the spec: the time-of-day and day-of-week restriction of a
rule (missing from the source). -/
structure TimeRestriction where
  allowedDays : List Nat
  allowedHours : List Nat
  deriving DecidableEq

/-- Modelled from the spec: the structured condition set of a RewardRule
(missing from the source): minimum single-transaction spend, merchant
allow-list, time restriction, cumulative gate, and the window definition. -/
structure RuleConditions where
  minSingleSpend : Option ℚ
  merchantAllowList : Option (List String)
  timeRestriction : Option TimeRestriction
  cumulativeGate : Option CumulativeGate
  window : WindowDef
  deriving DecidableEq

/-- Modelled from the spec: the RewardRule model (missing from the source).
categoryId none is the wildcard all-categories marker. -/
structure RewardRule where
  id : Nat
  rewardType : RewardType
  categoryId : Option Nat
  rate : ℚ
  conditions : RuleConditions
  cap : Option ℚ
  deriving DecidableEq

/-- Modelled from the spec: the Card model (missing from the source). -/
structure Card where
  id : Nat
  userId : Nat
  bank : String
  active : Bool
  rules : List RewardRule
  deriving DecidableEq

/-- Modelled from the spec: a purchase or transaction record (missing from
the source): amount, category, merchant and timestamp. -/
structure Purchase where
  amount : ℚ
  category : Nat
  merchant : String
  timestamp : Int
  deriving DecidableEq

/-- Modelled from the spec: the cumulative counters of a ThresholdState
window instance (missing from the source). -/
structure Counters where
  spendToDate : ℚ
  rewardEarnedToDate : ℚ
  deriving DecidableEq

/-- Zeroed counters of a window instance with no prior activity. -/
def zeroCounters : Counters := ⟨0, 0⟩

/-- Modelled from the spec: the RewardQuote produced by the Reward
Calculator (missing from the source). -/
structure RewardQuote where
  amount : ℚ
  unit : RewardType
  capped : Bool
  unlockedBonus : Bool
  deriving DecidableEq

/-- Modelled from the spec: whether the cumulative minimum-spend gate of a
rule is met, counting spend-to-date in the window INCLUDING the quoted
purchase (missing from the source).  False when the rule has no gate. -/
def gateMet (rule : RewardRule) (p : Purchase) (cnt : Counters) : Bool :=
  match rule.conditions.cumulativeGate with
  | none => false
  | some g => decide (g.minCumulativeSpend ≤ cnt.spendToDate + p.amount)

/-- Modelled from the spec: the rate the Calculator applies — the unlocked
rate when the cumulative gate is met, the base rate otherwise (missing from
the source). -/
def effectiveRate (rule : RewardRule) (p : Purchase) (cnt : Counters) : ℚ :=
  match rule.conditions.cumulativeGate with
  | none => rule.rate
  | some g =>
      if g.minCumulativeSpend ≤ cnt.spendToDate + p.amount then g.unlockedRate
      else rule.rate

/-- Modelled from the spec: the reward before cap clamping, purchase amount
times the effective rate (missing from the source). -/
def grossReward (rule : RewardRule) (p : Purchase) (cnt : Counters) : ℚ :=
  p.amount * effectiveRate rule p cnt

/-- Modelled from the spec: quote of the Reward Calculator (missing from the
source) — pure function of rule, purchase and threshold counters.  When the
rule has a cap the amount is clamped to the remaining room
max 0 (cap - rewardEarnedToDate), and capped records whether clamping
occurred. -/
def quote (rule : RewardRule) (p : Purchase) (cnt : Counters) : RewardQuote :=
  let base := grossReward rule p cnt
  match rule.cap with
  | none => ⟨base, rule.rewardType, false, gateMet rule p cnt⟩
  | some c =>
      let room := max 0 (c - cnt.rewardEarnedToDate)
      if room < base then ⟨room, rule.rewardType, true, gateMet rule p cnt⟩
      else ⟨base, rule.rewardType, false, gateMet rule p cnt⟩

/-- Modelled from the spec: the per-rule Threshold Tracker state (missing
from the source) — counters per window instance, keyed by the windowInstance
key.  Finalized past instances stay in the list, retained for analytics. -/
abbrev WindowedState := List (Nat × Counters)

/-- Counters recorded for a window instance; zeroed counters for an
instance with no prior activity (no implicit creation). -/
def lookupWindow (st : WindowedState) (w : Nat) : Counters :=
  match st with
  | [] => zeroCounters
  | e :: rest => if e.1 == w then e.2 else lookupWindow rest w

/-- Replaces the counters recorded for a window instance, creating the
instance entry when absent. -/
def updateWindow (st : WindowedState) (w : Nat) (c : Counters) : WindowedState :=
  match st with
  | [] => [(w, c)]
  | e :: rest => if e.1 == w then (w, c) :: rest else e :: updateWindow rest w c

/-- Modelled from the spec: the Threshold Tracker error cases (missing from
the source). -/
inductive TrackerError where
  | invalidWindow
  | concurrentUpdate
  deriving DecidableEq

/-- Modelled from the spec: the increment a committed transaction applies to
the counters of its window instance — spend grows by the transaction amount,
reward earned grows by the quoted (cap-clamped) reward against the counters
read at commit time (missing from the source). -/
def applyTransaction (rule : RewardRule) (tx : Purchase) (cnt : Counters) : Counters :=
  ⟨cnt.spendToDate + tx.amount, cnt.rewardEarnedToDate + (quote rule tx cnt).amount⟩

/-- Modelled from the spec: commit of the Threshold Tracker for one rule
(missing from the source).  Fails closed with InvalidWindowError when the
timestamp resolves to no window; otherwise applies the increment to the
resolved window instance, starting from zeroed counters when the instance
has no prior activity (lazy rollover: an earlier instance is no longer
touched once commits move to a later one). -/
def commitW (rule : RewardRule) (tx : Purchase) (st : WindowedState) :
    Except TrackerError WindowedState :=
  match resolveWindow rule.conditions.window tx.timestamp with
  | none => .error .invalidWindow
  | some w => .ok (updateWindow st w (applyTransaction rule tx (lookupWindow st w)))

/-- Commits a list of transactions in order; a failing commit leaves the
state unchanged and processing continues with the next transaction. -/
def commitAll (rule : RewardRule) (txs : List Purchase) (st : WindowedState) :
    WindowedState :=
  match txs with
  | [] => st
  | tx :: rest =>
      match commitW rule tx st with
      | .error _ => commitAll rule rest st
      | .ok st2 => commitAll rule rest st2

/-- Modelled from the spec: the full Threshold Tracker store (missing from
the source), per-rule window states keyed by (cardId, ruleId). -/
abbrev SystemState := List ((Nat × Nat) × WindowedState)

/-- The per-rule window state stored for a (cardId, ruleId) key; empty when
the key has no prior activity. -/
def keyLookup (st : SystemState) (cardId ruleId : Nat) : WindowedState :=
  match st with
  | [] => []
  | e :: rest =>
      if e.1.1 == cardId && e.1.2 == ruleId then e.2
      else keyLookup rest cardId ruleId

/-- Replaces the window state stored for a (cardId, ruleId) key, creating
the entry when absent. -/
def keyUpdate (st : SystemState) (cardId ruleId : Nat) (w : WindowedState) :
    SystemState :=
  match st with
  | [] => [((cardId, ruleId), w)]
  | e :: rest =>
      if e.1.1 == cardId && e.1.2 == ruleId then ((cardId, ruleId), w) :: rest
      else e :: keyUpdate rest cardId ruleId w

/-- Modelled from the spec: getState of the Threshold Tracker (missing from
the source) — read-only: resolves the window instance for the asOf
timestamp and returns its counters, zeroed for an instance with no prior
activity, or none when the timestamp resolves to no window. -/
def getState (st : SystemState) (cardId ruleId : Nat) (rule : RewardRule)
    (asOf : Int) : Option Counters :=
  (resolveWindow rule.conditions.window asOf).map
    (lookupWindow (keyLookup st cardId ruleId))

/-- Modelled from the spec: commit of the Threshold Tracker (missing from
the source), the only mutator of the store. -/
def commit (st : SystemState) (cardId ruleId : Nat) (rule : RewardRule)
    (tx : Purchase) : Except TrackerError SystemState :=
  match commitW rule tx (keyLookup st cardId ruleId) with
  | .error e => .error e
  | .ok w => .ok (keyUpdate st cardId ruleId w)

/-! ### Rule Matcher -/

/-- Modelled from the spec: category condition of the Rule Matcher (missing
from the source) — the rule category equals the purchase category, or the
rule carries the wildcard marker. -/
def categoryMatches (rule : RewardRule) (p : Purchase) : Bool :=
  match rule.categoryId with
  | none => true
  | some c => c == p.category

/-- Modelled from the spec: minimum single-transaction spend condition
(missing from the source). -/
def minSpendOk (rule : RewardRule) (p : Purchase) : Bool :=
  match rule.conditions.minSingleSpend with
  | none => true
  | some m => decide (m ≤ p.amount)

/-- Modelled from the spec: merchant allow-list condition (missing from the
source). -/
def merchantOk (rule : RewardRule) (p : Purchase) : Bool :=
  match rule.conditions.merchantAllowList with
  | none => true
  | some l => l.contains p.merchant

/-- Day of week (0 to 6) of a timestamp in hours. -/
def dayOfWeek (ts : Int) : Nat := ((ts / (hoursPerDay : Int)) % 7).toNat

/-- Hour of day (0 to 23) of a timestamp in hours. -/
def hourOfDay (ts : Int) : Nat := (ts % (hoursPerDay : Int)).toNat

/-- Modelled from the spec: time-of-day and day-of-week condition (missing
from the source). -/
def timeOk (rule : RewardRule) (p : Purchase) : Bool :=
  match rule.conditions.timeRestriction with
  | none => true
  | some tr =>
      tr.allowedDays.contains (dayOfWeek p.timestamp) &&
      tr.allowedHours.contains (hourOfDay p.timestamp)

/-- Modelled from the spec: whether a rule applies to a purchase (missing
from the source) — the card is active and the category and all
non-cumulative conditions are satisfied. -/
def ruleApplies (card : Card) (rule : RewardRule) (p : Purchase) : Bool :=
  card.active && categoryMatches rule p && minSpendOk rule p &&
    merchantOk rule p && timeOk rule p

/-- Specificity rank of a rule for ordering: a concrete category outranks
the wildcard. -/
def specificityRank (rule : RewardRule) : Nat :=
  if rule.categoryId.isSome then 0 else 1

/-- Ordering of matched rules: more specific category first, then higher
rate first. -/
def ruleBefore (r1 r2 : RewardRule) : Bool :=
  decide (specificityRank r1 < specificityRank r2) ||
    (specificityRank r1 == specificityRank r2 && decide (r2.rate ≤ r1.rate))

/-- Insertion step of the matched-rule sort. -/
def insertRule (r : RewardRule) : List RewardRule → List RewardRule
  | [] => [r]
  | x :: xs => if ruleBefore r x then r :: x :: xs else x :: insertRule r xs

/-- Insertion sort of matched rules by ruleBefore. -/
def sortRules : List RewardRule → List RewardRule
  | [] => []
  | x :: xs => insertRule x (sortRules xs)

/-- Modelled from the spec: matchRules of the Rule Matcher (missing from the
source) — the applicable rules of the card, ordered by specificity then
rate; the empty sequence (not an error) when no rule applies. -/
def matchRules (card : Card) (p : Purchase) : List RewardRule :=
  sortRules (card.rules.filter (fun r => ruleApplies card r p))

/-! ### Optimizer -/

/-- Modelled from the spec: a candidate card and rule pair of the Optimizer
with its quote and effective value (missing from the source). -/
structure Candidate where
  cardId : Nat
  ruleId : Nat
  quoteResult : RewardQuote
  effectiveValue : ℚ
  deriving DecidableEq

/-- Modelled from the spec: the Optimizer error cases (missing from the
source). -/
inductive OptimizerError where
  | noEligibleCard
  | configurationError
  deriving DecidableEq

/-- Quote of a rule for a purchase against the tracker state read as of the
purchase timestamp; zeroed counters when the timestamp resolves to no
window. -/
def quoteAsOf (st : SystemState) (cardId : Nat) (rule : RewardRule)
    (p : Purchase) : RewardQuote :=
  let cnt :=
    match getState st cardId rule.id rule p.timestamp with
    | some c => c
    | none => zeroCounters
  quote rule p cnt

/-- Modelled from the spec: the candidates a card contributes — one per
matching rule, each converted to the common effective value unit through the
injected exchange configuration; a missing exchange-rate entry fails loudly
with a configuration error (missing from the source). -/
def candidatesForCard (exchange : RewardType → Option ℚ) (st : SystemState)
    (p : Purchase) (card : Card) : Except OptimizerError (List Candidate) :=
  (matchRules card p).foldr
    (fun r acc =>
      match acc with
      | .error e => .error e
      | .ok l =>
          let q := quoteAsOf st card.id r p
          match exchange q.unit with
          | none => .error .configurationError
          | some ex => .ok (⟨card.id, r.id, q, q.amount * ex⟩ :: l))
    (.ok [])

/-- Ranking of candidates: higher effective value first, ties broken by the
lower card identifier (deterministic). -/
def betterCandidate (a b : Candidate) : Bool :=
  decide (b.effectiveValue < a.effectiveValue) ||
    (decide (a.effectiveValue = b.effectiveValue) && decide (a.cardId < b.cardId))

/-- Best candidate of a list under betterCandidate, none for the empty
list. -/
def pickBest : List Candidate → Option Candidate
  | [] => none
  | c :: rest =>
      match pickBest rest with
      | none => some c
      | some b => if betterCandidate b c then some b else some c

/-- Insertion step of the candidate ranking sort. -/
def insertCandidate (c : Candidate) : List Candidate → List Candidate
  | [] => [c]
  | x :: xs => if betterCandidate c x then c :: x :: xs else x :: insertCandidate c xs

/-- Insertion sort of candidates by betterCandidate. -/
def sortCandidates : List Candidate → List Candidate
  | [] => []
  | x :: xs => insertCandidate x (sortCandidates xs)

/-- Modelled from the spec: the Recommendation of the Optimizer (missing
from the source) — the winning candidate plus the ranked runner-ups. -/
structure Recommendation where
  best : Candidate
  alternatives : List Candidate
  deriving DecidableEq

/-- Modelled from the spec: recommend of the Optimizer (missing from the
source) — for each card keeps the best-quoting matching rule, ranks the
cards by effective value with the deterministic tie-break, and returns the
winner with the ranked alternatives; fails with noEligibleCard when no card
contributes a candidate.  Read-only in the tracker state. -/
def recommend (exchange : RewardType → Option ℚ) (st : SystemState)
    (p : Purchase) (cards : List Card) : Except OptimizerError Recommendation :=
  let gathered : Except OptimizerError (List Candidate) :=
    cards.foldr
      (fun card acc =>
        match acc with
        | .error e => .error e
        | .ok l =>
            match candidatesForCard exchange st p card with
            | .error e => .error e
            | .ok cl =>
                match pickBest cl with
                | none => .ok l
                | some c => .ok (c :: l))
      (.ok ([] : List Candidate))
  match gathered with
  | .error e => .error e
  | .ok cands =>
      match sortCandidates cands with
      | [] => .error .noEligibleCard
      | best :: rest => .ok ⟨best, rest⟩

/-! ### Operation-level semantics

The spec separates the read-only call shapes (quote, recommend) from the
single mutator (commit).  The small-step semantics below runs a sequence of
engine calls against the tracker store and is what the frame claims are
stated over. -/

/-- Result of one engine call. -/
inductive OpResult where
  | quoted (q : RewardQuote)
  | committed
  | commitFailed (e : TrackerError)
  | recommended (r : Except OptimizerError Recommendation)

/-- One engine call: a calculator quote, a tracker commit, or an optimizer
recommendation. -/
inductive Op where
  | quoteOp (cardId ruleId : Nat) (rule : RewardRule) (p : Purchase)
  | commitOp (cardId ruleId : Nat) (rule : RewardRule) (tx : Purchase)
  | recommendOp (exchange : RewardType → Option ℚ) (p : Purchase) (cards : List Card)

/-- Whether an engine call is the commit mutator. -/
def Op.isCommit : Op → Bool
  | .commitOp _ _ _ _ => true
  | _ => false

/-- Runs one engine call against the tracker store, returning its result
and the store afterwards.  A failing commit leaves the store unchanged. -/
def runOp (op : Op) (st : SystemState) : OpResult × SystemState :=
  match op with
  | .quoteOp cardId ruleId rule p =>
      let cnt :=
        match getState st cardId ruleId rule p.timestamp with
        | some c => c
        | none => zeroCounters
      (.quoted (quote rule p cnt), st)
  | .commitOp cardId ruleId rule tx =>
      match commit st cardId ruleId rule tx with
      | .error e => (.commitFailed e, st)
      | .ok st2 => (.committed, st2)
  | .recommendOp exchange p cards => (.recommended (recommend exchange st p cards), st)

/-- Runs a sequence of engine calls, threading the tracker store. -/
def runOps (ops : List Op) (st : SystemState) : SystemState :=
  match ops with
  | [] => st
  | op :: rest => runOps rest (runOp op st).2

/-! ### Concrete scenario inputs from the specification -/

/-- The dining category identifier used by the concrete scenarios. -/
def diningCategory : Nat := 1

/-- The Card A rule of the spec scenario: cashback, dining, rate 0.05,
cap 500 per month. -/
def diningCashbackRule : RewardRule :=
  ⟨1, .cashback, some diningCategory, 5/100,
    ⟨none, none, none, none, .calendarMonth⟩, some 500⟩

/-- The first scenario purchase: 12000 on dining, inside month 0. -/
def diningPurchase12000 : Purchase := ⟨12000, diningCategory, "udupi", 100⟩

/-- The second scenario purchase: 1000 on dining, same month. -/
def diningPurchase1000 : Purchase := ⟨1000, diningCategory, "udupi", 200⟩

/-- A 1000 dining purchase with a timestamp in month 1, used for the
window-rollover scenario. -/
def diningPurchaseMonth1 : Purchase := ⟨1000, diningCategory, "udupi", 800⟩

/-- A dining purchase with a negative timestamp, resolvable to no window. -/
def diningPurchaseNegative : Purchase := ⟨1000, diningCategory, "udupi", -5⟩

/-- The Card B rule of the spec scenario: rate 0.01, unlocking 0.05 at
cumulative monthly spend of at least 5000, wildcard category, no cap. -/
def tieredRule : RewardRule :=
  ⟨2, .cashback, none, 1/100,
    ⟨none, none, none, some ⟨5000, 5/100⟩, .calendarMonth⟩, none⟩

/-- A 3000 purchase for the cumulative-unlock scenario. -/
def spend3000a : Purchase := ⟨3000, 2, "mall", 50⟩

/-- A second 3000 purchase in the same window. -/
def spend3000b : Purchase := ⟨3000, 2, "mall", 60⟩

/-- A further 1000 purchase in the same window. -/
def spend1000 : Purchase := ⟨1000, 2, "mall", 70⟩

/-- A sample active card carrying the dining cashback rule. -/
def sampleCard : Card := ⟨1, 1, "hdfc", true, [diningCashbackRule]⟩

/-! ## Helper lemmas -/

theorem lookupWindow_updateWindow_self (st : WindowedState) (w : Nat) (c : Counters) :
    lookupWindow (updateWindow st w c) w = c := by
  induction st with
  | nil => simp [updateWindow, lookupWindow]
  | cons e rest ih =>
      by_cases h : e.1 == w
      · simp [updateWindow, h, lookupWindow]
      · simp [updateWindow, h, lookupWindow, ih]

theorem lookupWindow_updateWindow_ne (st : WindowedState) (w w2 : Nat) (c : Counters)
    (h : w2 ≠ w) : lookupWindow (updateWindow st w c) w2 = lookupWindow st w2 := by
  induction st with
  | nil => simp [updateWindow, lookupWindow, Ne.symm h]
  | cons e rest ih =>
      by_cases he : e.1 == w
      · have hew : e.1 = w := by simpa using he
        simp [updateWindow, he, lookupWindow, Ne.symm h, hew]
      · by_cases he2 : e.1 == w2
        · simp [updateWindow, he, lookupWindow, he2]
        · simp [updateWindow, he, lookupWindow, he2, ih]

theorem mem_updateWindow (st : WindowedState) (w : Nat) (c : Counters)
    (e : Nat × Counters) (h : e ∈ updateWindow st w c) : e = (w, c) ∨ e ∈ st := by
  induction st with
  | nil => simpa [updateWindow] using h
  | cons x rest ih =>
      by_cases hx : x.1 == w
      · simp only [updateWindow, if_pos hx, List.mem_cons] at h
        rcases h with h | h
        · exact Or.inl h
        · exact Or.inr (List.mem_cons_of_mem x h)
      · simp only [updateWindow, if_neg hx, List.mem_cons] at h
        rcases h with h | h
        · exact Or.inr (h ▸ List.mem_cons_self x rest)
        · rcases ih h with h2 | h2
          · exact Or.inl h2
          · exact Or.inr (List.mem_cons_of_mem x h2)

theorem keyLookup_keyUpdate_self (st : SystemState) (cardId ruleId : Nat)
    (w : WindowedState) : keyLookup (keyUpdate st cardId ruleId w) cardId ruleId = w := by
  induction st with
  | nil => simp [keyUpdate, keyLookup]
  | cons e rest ih =>
      by_cases h : e.1.1 == cardId && e.1.2 == ruleId
      · simp [keyUpdate, h, keyLookup]
      · simp [keyUpdate, h, keyLookup, ih]

theorem find?_append_none {α : Type} (p : α → Bool) (l1 l2 : List α)
    (h : l1.find? p = none) : (l1 ++ l2).find? p = l2.find? p := by
  induction l1 with
  | nil => rfl
  | cons x rest ih =>
      by_cases hx : p x
      · rw [List.find?_cons_of_pos _ hx] at h
        exact absurd h (by simp)
      · rw [List.find?_cons_of_neg _ hx] at h
        rw [List.cons_append, List.find?_cons_of_neg _ hx]
        exact ih h

theorem mem_insertRule (r x : RewardRule) (l : List RewardRule) :
    x ∈ insertRule r l ↔ x = r ∨ x ∈ l := by
  induction l with
  | nil => simp [insertRule]
  | cons y rest ih =>
      by_cases h : ruleBefore r y
      · simp [insertRule, h]
      · simp only [insertRule, if_neg h, List.mem_cons, ih]
        tauto

theorem mem_sortRules (x : RewardRule) (l : List RewardRule) :
    x ∈ sortRules l ↔ x ∈ l := by
  induction l with
  | nil => simp [sortRules]
  | cons y rest ih =>
      simp only [sortRules, mem_insertRule, List.mem_cons, ih]

/-- The reward-earned bound the cap invariant maintains per entry. -/
def capInvariant (c : ℚ) (st : WindowedState) : Prop :=
  ∀ e ∈ st, e.2.rewardEarnedToDate ≤ c

theorem quote_amount_le_room (rule : RewardRule) (p : Purchase) (cnt : Counters)
    (c : ℚ) (hcap : rule.cap = some c) :
    (quote rule p cnt).amount ≤ max 0 (c - cnt.rewardEarnedToDate) := by
  simp only [quote, hcap]
  by_cases h : max 0 (c - cnt.rewardEarnedToDate) < grossReward rule p cnt
  · rw [if_pos h]
  · rw [if_neg h]
    exact le_of_not_lt h

theorem lookupWindow_le_of_capInvariant (c : ℚ) (st : WindowedState) (w : Nat)
    (hc : 0 ≤ c) (hinv : capInvariant c st) :
    (lookupWindow st w).rewardEarnedToDate ≤ c := by
  induction st with
  | nil => simpa [lookupWindow, zeroCounters] using hc
  | cons e rest ih =>
      by_cases h : e.1 == w
      · simpa [lookupWindow, h] using hinv e (List.mem_cons_self e rest)
      · simp only [lookupWindow, if_neg h]
        exact ih (fun x hx => hinv x (List.mem_cons_of_mem e hx))

theorem commitW_preserves_capInvariant (rule : RewardRule) (tx : Purchase)
    (st st2 : WindowedState) (c : ℚ) (hcap : rule.cap = some c) (hc : 0 ≤ c)
    (hinv : capInvariant c st) (hok : commitW rule tx st = .ok st2) :
    capInvariant c st2 := by
  rw [commitW] at hok
  rcases hw : resolveWindow rule.conditions.window tx.timestamp with _ | w
  · rw [hw] at hok
    exact absurd hok (by simp)
  · rw [hw] at hok
    have hst2 : st2 = updateWindow st w (applyTransaction rule tx (lookupWindow st w)) := by
      have := hok
      simpa using this.symm
    subst hst2
    intro e he
    rcases mem_updateWindow _ _ _ _ he with h | h
    · subst h
      have hearned : (lookupWindow st w).rewardEarnedToDate ≤ c :=
        lookupWindow_le_of_capInvariant c st w hc hinv
      have hroom : max 0 (c - (lookupWindow st w).rewardEarnedToDate)
          = c - (lookupWindow st w).rewardEarnedToDate :=
        max_eq_right (by linarith)
      have hamt := quote_amount_le_room rule tx (lookupWindow st w) c hcap
      rw [hroom] at hamt
      simp only [applyTransaction]
      linarith
    · exact hinv e h

theorem commitAll_preserves_capInvariant (rule : RewardRule) (txs : List Purchase)
    (st : WindowedState) (c : ℚ) (hcap : rule.cap = some c) (hc : 0 ≤ c)
    (hinv : capInvariant c st) : capInvariant c (commitAll rule txs st) := by
  induction txs generalizing st with
  | nil => simpa [commitAll] using hinv
  | cons tx rest ih =>
      rw [commitAll]
      rcases hcw : commitW rule tx st with e | st2
      · exact ih st hinv
      · exact ih st2 (commitW_preserves_capInvariant rule tx st st2 c hcap hc hinv hcw)

/-! ## Claim theorems -/

/-- C8: the persisted schema defines exactly one application table, users,
whose columns are a UUID primary key id, a unique non-null email and a
non-null password; no card, reward-rule, transaction or threshold-state
table exists. -/
theorem schema_single_users_table :
    credoraSchema = [usersTable]
    ∧ credoraSchema.map Table.name = ["users"]
    ∧ usersTable.columns.map Column.name = ["id", "email", "password"]
    ∧ idColumn.ty = .uuid
    ∧ idColumn.primaryKey = true
    ∧ emailColumn.uniqueCol = true
    ∧ emailColumn.notNull = true
    ∧ passwordColumn.notNull = true
    ∧ credoraSchema.all (fun t => t.name == "users") = true :=
  ⟨rfl, rfl, rfl, rfl, rfl, rfl, rfl, rfl, rfl⟩

/-- C9: a successful register stores the bcrypt hash as the stored password,
and a subsequent login with the same plain-text password fails with the
Invalid password error, because login compares the stored value with the
plain-text argument directly; the round trip never succeeds with the
original password (given that hashing changes the password). -/
theorem register_login_roundtrip (hash : String → String) (db : UsersDb)
    (email password : String) (hhash : hash password ≠ password)
    (hfree : findUserByEmail db email = none) :
    register hash db email password
        = (.ok "User registered successfully", createUser db email (hash password))
    ∧ login (createUser db email (hash password)) email password
        = .err "Invalid password"
    ∧ ∀ m, login (createUser db email (hash password)) email password ≠ .ok m := by
  have hfind : findUserByEmail (createUser db email (hash password)) email
      = some ⟨email, hash password⟩ := by
    rw [findUserByEmail] at hfree ⊢
    rw [createUser, find?_append_none _ _ _ hfree]
    simp [List.find?]
  have hlog : login (createUser db email (hash password)) email password
      = .err "Invalid password" := by
    simp [login, hfind, hhash]
  refine ⟨by rw [register, hfree], hlog, fun m => by rw [hlog]; simp⟩

/-- C10: when a user with the given email already exists, registerService
returns the User already exists error and the users state is unchanged — no
user row is created on the duplicate-registration path (and likewise for
register of the backend service). -/
theorem registerService_duplicate (hash : String → String) (db : UsersDb)
    (email password : String) (u : UserRow)
    (hdup : findUserByEmail db email = some u) :
    registerService db email password = (.err "User already exists", db)
    ∧ register hash db email password = (.err "User already exists", db) := by
  constructor
  · rw [registerService, hdup]
  · rw [register, hdup]

/-- C7: a transaction whose timestamp resolves to no window instance under
the rule window definition makes commit fail with the invalid-window error
and leaves the tracker state completely unchanged — no counter is
incremented on the error path. -/
theorem commit_invalid_window (st : SystemState) (cardId ruleId : Nat)
    (rule : RewardRule) (tx : Purchase)
    (hres : resolveWindow rule.conditions.window tx.timestamp = none) :
    commit st cardId ruleId rule tx = .error .invalidWindow
    ∧ runOp (.commitOp cardId ruleId rule tx) st
        = (.commitFailed .invalidWindow, st) := by
  have h1 : commitW rule tx (keyLookup st cardId ruleId) = .error .invalidWindow := by
    rw [commitW, hres]
  have h2 : commit st cardId ruleId rule tx = .error .invalidWindow := by
    rw [commit, h1]
  exact ⟨h2, by rw [runOp, h2]⟩

/-- C3: quote and recommend are read-only — running any sequence of engine
calls that contains no commit leaves the tracker state unchanged, so calling
quote any number of times without an intervening commit never changes the
ThresholdState and recommend never mutates tracker state. -/
theorem quote_recommend_readonly (ops : List Op) (st : SystemState)
    (h : ∀ op ∈ ops, op.isCommit = false) : runOps ops st = st := by
  induction ops with
  | nil => rfl
  | cons op rest ih =>
      have hop : op.isCommit = false := h op (List.mem_cons_self op rest)
      have hstep : (runOp op st).2 = st := by
        cases op with
        | quoteOp a b c d => rfl
        | commitOp a b c d => exact absurd hop (by simp [Op.isCommit])
        | recommendOp a b c => rfl
      rw [runOps, hstep]
      exact ih (fun o ho => h o (List.mem_cons_of_mem op ho))

/-- C2: for a rule with cap C, the reward recorded in any single window
instance after any sequence of commits never exceeds C, and the per-entry
cap bound is an invariant preserved by commit. -/
theorem commit_cap_monotone (rule : RewardRule) (c : ℚ) (txs : List Purchase)
    (w : Nat) (hcap : rule.cap = some c) (hc : 0 ≤ c) :
    (lookupWindow (commitAll rule txs []) w).rewardEarnedToDate ≤ c
    ∧ ∀ st st2 tx, capInvariant c st → commitW rule tx st = .ok st2 →
        capInvariant c st2 := by
  constructor
  · refine lookupWindow_le_of_capInvariant c _ w hc ?_
    refine commitAll_preserves_capInvariant rule txs [] c hcap hc ?_
    intro e he
    exact absurd he (List.not_mem_nil e)
  · intro st st2 tx hinv hok
    exact commitW_preserves_capInvariant rule tx st st2 c hcap hc hinv hok

/-- C1: for every rule with a cap and every purchase, quote clamps the
reward amount to max 0 (cap - rewardEarnedToDate) and sets capped exactly
when clamping occurred (including clamping to zero); concretely, for the
cashback dining rule with rate 0.05 and cap 500 per month, a 12000 dining
purchase quotes 500 with capped true, and after committing it a 1000 dining
purchase in the same window quotes 0. -/
theorem quote_cap_clamp (rule : RewardRule) (p : Purchase) (cnt : Counters)
    (c : ℚ) (hcap : rule.cap = some c) :
    ((quote rule p cnt).amount
        = min (grossReward rule p cnt) (max 0 (c - cnt.rewardEarnedToDate))
      ∧ ((quote rule p cnt).capped = true
          ↔ (quote rule p cnt).amount < grossReward rule p cnt))
    ∧ quote diningCashbackRule diningPurchase12000 zeroCounters
        = ⟨500, .cashback, true, false⟩
    ∧ commitW diningCashbackRule diningPurchase12000 [] = .ok [(0, ⟨12000, 500⟩)]
    ∧ quote diningCashbackRule diningPurchase1000 ⟨12000, 500⟩
        = ⟨0, .cashback, true, false⟩ := by
  refine ⟨?_, ?_, ?_, ?_⟩
  · simp only [quote, hcap]
    by_cases h : max 0 (c - cnt.rewardEarnedToDate) < grossReward rule p cnt
    · rw [if_pos h]
      exact ⟨(min_eq_right (le_of_lt h)).symm, by simpa using h⟩
    · rw [if_neg h]
      exact ⟨(min_eq_left (le_of_not_lt h)).symm, by simp⟩
  · norm_num [quote, grossReward, effectiveRate, gateMet, diningCashbackRule,
      diningPurchase12000, zeroCounters]
  · have hw : resolveWindow WindowDef.calendarMonth 100 = some 0 := by decide
    norm_num [commitW, hw, updateWindow, applyTransaction, lookupWindow, quote,
      grossReward, effectiveRate, gateMet, diningCashbackRule,
      diningPurchase12000, zeroCounters]
  · norm_num [quote, grossReward, effectiveRate, gateMet, diningCashbackRule,
      diningPurchase1000]

/-- C5: for every rule with a cumulative minimum-spend gate, quote decides
the gate from cumulative spend-to-date in the window including the quoted
purchase, applies the unlocked rate exactly when the gate is met and the
fallback rate otherwise, and sets unlockedBonus accordingly; concretely,
with rate 0.01 unlocking 0.05 at cumulative spend of at least 5000 per
month, a single 3000 purchase quotes 30 without the bonus, and after
committing 3000 twice in-window a 1000 purchase quotes 50 with the bonus. -/
theorem quote_cumulative_gate (rule : RewardRule) (p : Purchase) (cnt : Counters)
    (g : CumulativeGate) (hgate : rule.conditions.cumulativeGate = some g)
    (hnocap : rule.cap = none) :
    ((quote rule p cnt).amount
        = p.amount *
            (if g.minCumulativeSpend ≤ cnt.spendToDate + p.amount then g.unlockedRate
             else rule.rate)
      ∧ ((quote rule p cnt).unlockedBonus = true
          ↔ g.minCumulativeSpend ≤ cnt.spendToDate + p.amount))
    ∧ quote tieredRule spend3000a zeroCounters = ⟨30, .cashback, false, false⟩
    ∧ commitAll tieredRule [spend3000a, spend3000b] [] = [(0, ⟨6000, 180⟩)]
    ∧ quote tieredRule spend1000 ⟨6000, 180⟩ = ⟨50, .cashback, false, true⟩ := by
  refine ⟨⟨?_, ?_⟩, ?_, ?_, ?_⟩
  · simp [quote, hnocap, grossReward, effectiveRate, hgate]
  · simp [quote, hnocap, gateMet, hgate]
  · norm_num [quote, grossReward, effectiveRate, gateMet, tieredRule,
      spend3000a, zeroCounters]
  · have hwa : resolveWindow WindowDef.calendarMonth 50 = some 0 := by decide
    have hwb : resolveWindow WindowDef.calendarMonth 60 = some 0 := by decide
    have h1 : commitW tieredRule spend3000a [] = .ok [(0, ⟨3000, 30⟩)] := by
      norm_num [commitW, hwa, updateWindow, applyTransaction, lookupWindow,
        quote, grossReward, effectiveRate, gateMet, tieredRule, spend3000a,
        zeroCounters]
    have h2 : commitW tieredRule spend3000b [(0, (⟨3000, 30⟩ : Counters))]
        = .ok [(0, ⟨6000, 180⟩)] := by
      norm_num [commitW, hwb, updateWindow, applyTransaction, lookupWindow,
        quote, grossReward, effectiveRate, gateMet, tieredRule, spend3000b,
        zeroCounters]
    simp only [commitAll, h1, h2]
  · norm_num [quote, grossReward, effectiveRate, gateMet, tieredRule, spend1000]

/-- C4: a commit whose timestamp resolves to a window instance with no
prior activity starts that instance from zeroed counters before applying
its increment, and the finalized counters of every other window instance
stay untouched, both observable afterwards through getState. -/
theorem commit_window_rollover (st st2 : SystemState) (cardId ruleId : Nat)
    (rule : RewardRule) (tx : Purchase) (asOfPrev : Int) (wNew wPrev : Nat)
    (hres : resolveWindow rule.conditions.window tx.timestamp = some wNew)
    (hfresh : lookupWindow (keyLookup st cardId ruleId) wNew = zeroCounters)
    (hprev : resolveWindow rule.conditions.window asOfPrev = some wPrev)
    (hne : wPrev ≠ wNew)
    (hcommit : commit st cardId ruleId rule tx = .ok st2) :
    getState st2 cardId ruleId rule tx.timestamp
        = some (applyTransaction rule tx zeroCounters)
    ∧ getState st2 cardId ruleId rule asOfPrev
        = getState st cardId ruleId rule asOfPrev := by
  have hcw : commitW rule tx (keyLookup st cardId ruleId)
      = .ok (updateWindow (keyLookup st cardId ruleId) wNew
          (applyTransaction rule tx zeroCounters)) := by
    rw [commitW, hres]
    simp only [hfresh]
  simp only [commit, hcw] at hcommit
  have hst2 : st2 = keyUpdate st cardId ruleId
      (updateWindow (keyLookup st cardId ruleId) wNew
        (applyTransaction rule tx zeroCounters)) := by
    simpa using hcommit.symm
  subst hst2
  constructor
  · rw [getState, hres]
    simp [keyLookup_keyUpdate_self, lookupWindow_updateWindow_self]
  · rw [getState, getState, hprev]
    simp [keyLookup_keyUpdate_self, lookupWindow_updateWindow_ne _ _ _ _ hne]

theorem categoryMatches_iff (r : RewardRule) (p : Purchase) :
    categoryMatches r p = true
      ↔ (r.categoryId = none ∨ r.categoryId = some p.category) := by
  rcases hc : r.categoryId with _ | c
  · simp [categoryMatches, hc]
  · simp [categoryMatches, hc]

theorem minSpendOk_iff (r : RewardRule) (p : Purchase) :
    minSpendOk r p = true
      ↔ ∀ m, r.conditions.minSingleSpend = some m → m ≤ p.amount := by
  rcases hm : r.conditions.minSingleSpend with _ | m
  · simp [minSpendOk, hm]
  · simp [minSpendOk, hm]

theorem merchantOk_iff (r : RewardRule) (p : Purchase) :
    merchantOk r p = true
      ↔ ∀ l, r.conditions.merchantAllowList = some l → p.merchant ∈ l := by
  rcases hm : r.conditions.merchantAllowList with _ | l
  · simp [merchantOk, hm]
  · simp [merchantOk, hm]

theorem timeOk_iff (r : RewardRule) (p : Purchase) :
    timeOk r p = true
      ↔ ∀ tr, r.conditions.timeRestriction = some tr →
          dayOfWeek p.timestamp ∈ tr.allowedDays
            ∧ hourOfDay p.timestamp ∈ tr.allowedHours := by
  rcases ht : r.conditions.timeRestriction with _ | tr
  · simp [timeOk, ht]
  · simp [timeOk, ht]

theorem ruleApplies_iff (card : Card) (r : RewardRule) (p : Purchase) :
    ruleApplies card r p = true
      ↔ card.active = true
        ∧ (r.categoryId = none ∨ r.categoryId = some p.category)
        ∧ (∀ m, r.conditions.minSingleSpend = some m → m ≤ p.amount)
        ∧ (∀ l, r.conditions.merchantAllowList = some l → p.merchant ∈ l)
        ∧ (∀ tr, r.conditions.timeRestriction = some tr →
            dayOfWeek p.timestamp ∈ tr.allowedDays
              ∧ hourOfDay p.timestamp ∈ tr.allowedHours) := by
  rw [ruleApplies]
  simp only [Bool.and_eq_true, categoryMatches_iff, minSpendOk_iff,
    merchantOk_iff, timeOk_iff]
  tauto

/-- C6: a rule is in the output of matchRules exactly when its category
matches the purchase category (or is the wildcard), the minimum
single-transaction spend, merchant allow-list and time-of-day or day-of-week
conditions hold for the purchase, and the card is active; and when no rule
applies matchRules returns the empty sequence rather than an error. -/
theorem matchRules_spec (card : Card) (p : Purchase) (r : RewardRule) :
    (r ∈ matchRules card p
      ↔ r ∈ card.rules
        ∧ card.active = true
        ∧ (r.categoryId = none ∨ r.categoryId = some p.category)
        ∧ (∀ m, r.conditions.minSingleSpend = some m → m ≤ p.amount)
        ∧ (∀ l, r.conditions.merchantAllowList = some l → p.merchant ∈ l)
        ∧ (∀ tr, r.conditions.timeRestriction = some tr →
            dayOfWeek p.timestamp ∈ tr.allowedDays
              ∧ hourOfDay p.timestamp ∈ tr.allowedHours))
    ∧ ((∀ r2 ∈ card.rules, ruleApplies card r2 p = false) →
        matchRules card p = []) := by
  constructor
  · rw [matchRules, mem_sortRules, List.mem_filter, ruleApplies_iff]
  · intro h
    rw [matchRules]
    have hf : card.rules.filter (fun r2 => ruleApplies card r2 p) = [] := by
      rw [List.filter_eq_nil_iff]
      intro a ha
      simp [h a ha]
    rw [hf, sortRules]

/-! ## Witnesses -/

/-- Witness for C1 at the dining scenario: with 500 already earned in the
window, the 1000 purchase quote equals the clamp formula. -/
theorem quote_cap_clamp_witness :
    (quote diningCashbackRule diningPurchase1000 ⟨12000, 500⟩).amount
        = min (grossReward diningCashbackRule diningPurchase1000 ⟨12000, 500⟩)
            (max 0 (500 - (⟨12000, 500⟩ : Counters).rewardEarnedToDate)) :=
  (quote_cap_clamp diningCashbackRule diningPurchase1000 ⟨12000, 500⟩ 500 rfl).1.1

/-- Witness for C2 at the dining scenario: after committing both purchases
the reward recorded in window 0 stays within the cap of 500. -/
theorem commit_cap_monotone_witness :
    (lookupWindow
        (commitAll diningCashbackRule [diningPurchase12000, diningPurchase1000] [])
        0).rewardEarnedToDate ≤ 500 :=
  (commit_cap_monotone diningCashbackRule 500
    [diningPurchase12000, diningPurchase1000] 0 rfl (by norm_num)).1

/-- Witness for C3: a quote followed by a recommend leaves the empty tracker
store unchanged. -/
theorem quote_recommend_readonly_witness :
    runOps
      [Op.quoteOp 1 1 diningCashbackRule diningPurchase1000,
        Op.recommendOp (fun _ => some 1) diningPurchase1000 [sampleCard]] [] = [] :=
  quote_recommend_readonly _ [] (by
    intro op hop
    simp only [List.mem_cons, List.not_mem_nil, or_false] at hop
    rcases hop with rfl | rfl <;> rfl)

/-- Tracker store after the month-0 dining commit, input of the rollover
witness. -/
def rolloverStateBefore : SystemState := [((1, 1), [(0, ⟨12000, 500⟩)])]

/-- Tracker store after the month-1 dining commit on rolloverStateBefore. -/
def rolloverStateAfter : SystemState :=
  [((1, 1), [(0, ⟨12000, 500⟩),
    (1, applyTransaction diningCashbackRule diningPurchaseMonth1 zeroCounters)])]

/-- Witness for C4 at the dining scenario: the month-1 commit starts month 1
from zeroed counters and leaves the month-0 counters readable unchanged. -/
theorem commit_window_rollover_witness :
    getState rolloverStateAfter 1 1 diningCashbackRule diningPurchaseMonth1.timestamp
        = some (applyTransaction diningCashbackRule diningPurchaseMonth1 zeroCounters)
    ∧ getState rolloverStateAfter 1 1 diningCashbackRule 100
        = getState rolloverStateBefore 1 1 diningCashbackRule 100 :=
  commit_window_rollover rolloverStateBefore rolloverStateAfter 1 1
    diningCashbackRule diningPurchaseMonth1 100 1 0
    (by decide) rfl (by decide) (by decide) rfl

/-- Witness for C5 at the tiered scenario: with 6000 committed in the
window, the 1000 purchase quote equals the gated rate formula. -/
theorem quote_cumulative_gate_witness :
    (quote tieredRule spend1000 ⟨6000, 180⟩).amount
        = spend1000.amount *
            (if (5000 : ℚ) ≤ (⟨6000, 180⟩ : Counters).spendToDate + spend1000.amount
             then (5/100 : ℚ) else tieredRule.rate) :=
  (quote_cumulative_gate tieredRule spend1000 ⟨6000, 180⟩ ⟨5000, 5/100⟩ rfl rfl).1.1

/-- Witness for C6: the dining rule is matched for the dining purchase on
the sample active card. -/
theorem matchRules_spec_witness :
    diningCashbackRule ∈ matchRules sampleCard diningPurchase12000 :=
  (matchRules_spec sampleCard diningPurchase12000 diningCashbackRule).1.mpr
    (by
      refine ⟨List.mem_cons_self _ _, rfl, Or.inr rfl, ?_, ?_, ?_⟩
      · intro m h
        simp [diningCashbackRule] at h
      · intro l h
        simp [diningCashbackRule] at h
      · intro tr h
        simp [diningCashbackRule] at h)

/-- Witness for C7: a commit at a negative timestamp fails with the
invalid-window error. -/
theorem commit_invalid_window_witness :
    commit [] 1 1 diningCashbackRule diningPurchaseNegative
        = .error .invalidWindow :=
  (commit_invalid_window [] 1 1 diningCashbackRule diningPurchaseNegative
    (by decide)).1

/-- Witness for C9 at a concrete hash function and user: after registering,
logging in with the original password fails with the Invalid password
error. -/
theorem register_login_roundtrip_witness :
    login (createUser [] "a@b.c" ((fun s => s ++ "#") "pw")) "a@b.c" "pw"
        = .err "Invalid password" :=
  (register_login_roundtrip (fun s => s ++ "#") [] "a@b.c" "pw"
    (by decide) rfl).2.1

/-- Witness for C10 at a concrete duplicate user: registerService reports
the existing user and returns the users state unchanged. -/
theorem registerService_duplicate_witness :
    registerService [⟨"a@b.c", "secret"⟩] "a@b.c" "other"
        = (.err "User already exists", [⟨"a@b.c", "secret"⟩]) :=
  (registerService_duplicate (fun s => s) [⟨"a@b.c", "secret"⟩] "a@b.c" "other"
    ⟨"a@b.c", "secret"⟩ (by decide)).1

end Credora
